import Mathlib

/-!
Shallow embedding of the secrets-manager gate of the `qmk_config` repository
(`features/secrets_manager.c` / `.h`, with the keycode layout of
`custom_keycodes.h` and the secret table of `secrets.h`).

Conventions of the embedding:
* QMK keycodes are `Nat`, using the concrete QMK/HID keycode values.
* The module-level static variables of `secrets_manager.c`
  (`secrets_unlocked`, `unlock_timer`, `pin_entry_mode`, `pin_buffer`,
  `pin_index`) become the fields of `SecretsState`.  The C `pin_buffer`
  is a 32-byte array together with a cursor `pin_index`; every byte below
  `pin_index` has been written by the digit handler since the last reset
  of `pin_index` to 0, and `strcmp` at submit time reads exactly the
  bytes below the terminator written at `pin_index`.  The field
  `pin_buffer : List Char` therefore holds precisely the characters at
  positions `0 .. pin_index - 1` (so `pin_index = pin_buffer.length`),
  which is observationally faithful.
* `timer_read32 () = now` is passed as an explicit `now` argument to the
  handlers that read the clock.
* Character output (`send_string_with_delay`, `tap_code`) is returned as
  an explicit list of `Emission`s instead of being performed.
-/

/-- QMK basic keycode `KC_1` (HID usage 0x1E). -/
def KC_1 : Nat := 30

/-- QMK basic keycode `KC_9` (HID usage 0x26). -/
def KC_9 : Nat := 38

/-- QMK basic keycode `KC_0` (HID usage 0x27); it follows `KC_9`. -/
def KC_0 : Nat := 39

/-- QMK basic keycode `KC_ENT` (HID usage 0x28). -/
def KC_ENT : Nat := 40

/-- QMK basic keycode `KC_ESC` (HID usage 0x29). -/
def KC_ESC : Nat := 41

/-- QMK basic keycode `KC_PENT` (keypad enter, HID usage 0x58). -/
def KC_PENT : Nat := 88

/-- QMK basic keycode `KC_KP_1` (keypad 1, HID usage 0x59). -/
def KC_KP_1 : Nat := 89

/-- QMK basic keycode `KC_KP_9` (keypad 9, HID usage 0x61). -/
def KC_KP_9 : Nat := 97

/-- QMK basic keycode `KC_KP_0` (keypad 0, HID usage 0x62); it follows `KC_KP_9`. -/
def KC_KP_0 : Nat := 98

/-- QMK `SAFE_RANGE` (`QK_USER`), where the custom keycode enum of
`custom_keycodes.h` starts.  The gate's logic only compares keycodes
relationally inside the enum, so only the ordering matters. -/
def SAFE_RANGE : Nat := 0x7E40

/-- `custom_keycodes.h`: `E_SECRET_START = SAFE_RANGE`. -/
def E_SECRET_START : Nat := SAFE_RANGE

/-- `custom_keycodes.h`: `E_PIN = E_SECRET_START`. -/
def E_PIN : Nat := E_SECRET_START

/-- `custom_keycodes.h`: `E_PASS4 = E_SECRET_START + 5` (last secret keycode). -/
def E_PASS4 : Nat := E_SECRET_START + 5

/-- `custom_keycodes.h`: `E_SECRET_END = E_SECRET_START + 6`. -/
def E_SECRET_END : Nat := E_SECRET_START + 6

/-- `custom_keycodes.h`: `PIN_ENTRY` comes right after `E_SECRET_END`. -/
def PIN_ENTRY : Nat := E_SECRET_END + 1

/-- `secrets.h`: the reference PIN `SECRET_PIN`. -/
def SECRET_PIN : String := "12345678"

/-- `secrets.h` / `secrets_manager.c`: the table `secret_list`, in the
order of `SECRETS_LIST` (which matches the keycodes `E_PIN`, `E_PHRASE`,
`E_PASS1` .. `E_PASS4`). -/
def secret_list : List String :=
  [SECRET_PIN, "my very secret phrase", "password1", "password2", "password3", "password4"]

/-- `secrets_manager.c`: `SECRET_COUNT = sizeof(secret_list)/sizeof(secret_list[0])`. -/
def SECRET_COUNT : Nat := secret_list.length

/-- `secrets_manager.c`: `get_secret(i)` returns `secret_list[i]` when
`i < SECRET_COUNT` and `NULL` (here `none`) otherwise. -/
def get_secret (i : Nat) : Option String :=
  if i < SECRET_COUNT then secret_list.get? i else none

/-- `secrets_manager.c`: `#define LOCK_TIMEOUT_MS 300000` (default). -/
def LOCK_TIMEOUT_MS : Nat := 300000

/-- `secrets_manager.c`: `#define MAX_PIN_LENGTH 32`. -/
def MAX_PIN_LENGTH : Nat := 32

/-- The module-level mutable state of `secrets_manager.c`:
`secrets_unlocked`, `unlock_timer` (uint32 millisecond timestamp),
`pin_entry_mode`, and `pin_buffer`/`pin_index` (represented as the list
of the `pin_index` characters written since the last cursor reset). -/
structure SecretsState where
  secrets_unlocked : Bool
  unlock_timer : Nat
  pin_entry_mode : Bool
  pin_buffer : List Char
deriving DecidableEq

/-- The state at firmware start: all statics zero-initialised
(`secrets_unlocked = false`, `unlock_timer = 0`, `pin_entry_mode = false`,
`pin_index = 0`). -/
def initialState : SecretsState :=
  { secrets_unlocked := false, unlock_timer := 0, pin_entry_mode := false, pin_buffer := [] }

/-- `secrets_lock()`: clears the unlocked flag, exits PIN entry mode and
resets the PIN buffer cursor. -/
def secrets_lock (s : SecretsState) : SecretsState :=
  { s with secrets_unlocked := false, pin_entry_mode := false, pin_buffer := [] }

/-- `enter_pin_mode()`: if secrets are not unlocked, activate PIN entry
mode and reset the buffer cursor; otherwise call `secrets_lock()`. -/
def enter_pin_mode (s : SecretsState) : SecretsState :=
  if !s.secrets_unlocked then
    { s with pin_entry_mode := true, pin_buffer := [] }
  else
    secrets_lock s

/-- The digit-to-value conversion inside `process_pin_entry`:
keypad 1–9 map to 1–9, keypad 0 maps to 0, and every other (main-row)
digit keycode maps to `keycode - KC_1 + 1`.  Note that for the main-row
zero (`KC_0 = KC_1 + 9`) this yields 10, so the stored character is
`'0' + 10 = ':'`, exactly as the C computes it. -/
def pinDigitVal (keycode : Nat) : Nat :=
  if KC_KP_1 ≤ keycode && keycode ≤ KC_KP_9 then keycode - KC_KP_1 + 1
  else if keycode = KC_KP_0 then 0
  else keycode - KC_1 + 1

/-- The character `'0' + val` that `process_pin_entry` appends to
`pin_buffer` for a digit keycode. -/
def bufferChar (keycode : Nat) : Char :=
  Char.ofNat (48 + pinDigitVal keycode)

/-- The digit-keycode test of `process_pin_entry`:
`(keycode >= KC_1 && keycode <= KC_0) || (keycode >= KC_KP_1 && keycode <= KC_KP_0)`. -/
def isPinDigitKeycode (keycode : Nat) : Bool :=
  (KC_1 ≤ keycode && keycode ≤ KC_0) || (KC_KP_1 ≤ keycode && keycode ≤ KC_KP_0)

/-- `process_pin_entry(keycode, record)` of `secrets_manager.c`.
`now` is the value `timer_read32()` would return at this call.  The
second component is the C return value (`true` = pass the key through,
`false` = key consumed). -/
def process_pin_entry (now : Nat) (s : SecretsState) (keycode : Nat) (pressed : Bool) :
    SecretsState × Bool :=
  if !s.pin_entry_mode || !pressed then
    (s, true)
  else if isPinDigitKeycode keycode then
    if s.pin_buffer.length < MAX_PIN_LENGTH - 1 then
      ({ s with pin_buffer := s.pin_buffer ++ [bufferChar keycode] }, false)
    else
      (s, false)
  else if keycode = KC_PENT || keycode = KC_ENT then
    if s.pin_buffer = SECRET_PIN.toList then
      ({ s with secrets_unlocked := true, unlock_timer := now,
                pin_entry_mode := false, pin_buffer := [] }, false)
    else
      ({ s with pin_entry_mode := false, pin_buffer := [] }, false)
  else if keycode = KC_ESC then
    ({ s with pin_entry_mode := false, pin_buffer := [] }, false)
  else
    (s, true)

/-- One observable output action of the gate: `send_string_with_delay`
of a whole secret, or `tap_code` of a single keycode. -/
inductive Emission where
  | text (msg : String)
  | tap (keycode : Nat)
deriving DecidableEq

/-- `process_secret_keycodes(keycode, record)` of `secrets_manager.c`.
Returns the new state, the list of emitted output actions, and the C
return value (`true` = pass through, `false` = consumed). -/
def process_secret_keycodes (s : SecretsState) (keycode : Nat) (pressed : Bool) :
    SecretsState × List Emission × Bool :=
  if E_PIN ≤ keycode && keycode ≤ E_PASS4 && !s.secrets_unlocked then
    (s, [], false)
  else if pressed && E_SECRET_START ≤ keycode && keycode < E_SECRET_END then
    match get_secret (keycode - E_SECRET_START) with
    | some secret => (s, [Emission.text secret, Emission.tap KC_ENT], false)
    | none => (s, [], false)
  else
    (s, [], true)

/-- `process_pin_entry_keycode(keycode, record)` of `secrets_manager.c`. -/
def process_pin_entry_keycode (s : SecretsState) (keycode : Nat) (pressed : Bool) :
    SecretsState × Bool :=
  if keycode = PIN_ENTRY && pressed then
    (enter_pin_mode s, false)
  else
    (s, true)

/-- The QMK timer API function `uint16_t timer_elapsed(uint16_t last)`:
the current 16-bit millisecond time minus `last`, computed in 16-bit
wrap-around arithmetic.  The uint32 `unlock_timer` argument that
`secrets_manager.c` passes is truncated to 16 bits at the call, and the
result is always below `2^16 = 65536`. -/
def timer_elapsed (now last : Nat) : Nat :=
  (now % 65536 + (65536 - last % 65536)) % 65536

/-- `secrets_timer_task()` of `secrets_manager.c`: locks everything when
`secrets_unlocked && timer_elapsed(unlock_timer) > LOCK_TIMEOUT_MS`.
`now` is the current millisecond time used by `timer_elapsed`. -/
def secrets_timer_task (now : Nat) (s : SecretsState) : SecretsState :=
  if s.secrets_unlocked && decide (LOCK_TIMEOUT_MS < timer_elapsed now s.unlock_timer) then
    { s with secrets_unlocked := false, pin_entry_mode := false, pin_buffer := [] }
  else
    s

/-- `secrets_gui_lock()` of `secrets_manager.c`: sets
`secrets_unlocked = false` (and touches nothing else). -/
def secrets_gui_lock (s : SecretsState) : SecretsState :=
  { s with secrets_unlocked := false }

/-- `secrets_get_indicator_state()` of `secrets_manager.c`:
1 in PIN entry mode, else 2 when unlocked, else 0. -/
def secrets_get_indicator_state (s : SecretsState) : Nat :=
  if s.pin_entry_mode then 1
  else if s.secrets_unlocked then 2
  else 0

/-- The digit a digit keycode stands for on the keyboard legend:
main-row or keypad `0` is the digit 0, main-row or keypad 1–9 are the
digits 1–9.  This is the specification-side reading of a digit
keystroke, used to state what "the entered digit string" is. -/
def keyDigit (keycode : Nat) : Nat :=
  if keycode = KC_0 || keycode = KC_KP_0 then 0
  else if KC_KP_1 ≤ keycode && keycode ≤ KC_KP_9 then keycode - KC_KP_1 + 1
  else keycode - KC_1 + 1

/-- The character of the digit a digit keycode stands for. -/
def keyChar (keycode : Nat) : Char :=
  Char.ofNat (48 + keyDigit keycode)

/-- Deliver a sequence of key-press events to `process_pin_entry`,
keeping only the state (the dispatch loop of `process_record_user`
restricted to the PIN handler). -/
def runDigits (now : Nat) (s : SecretsState) (keycodes : List Nat) : SecretsState :=
  keycodes.foldl (fun t keycode => (process_pin_entry now t keycode true).1) s

/-- The `CapturingPin` state with an empty buffer, as produced by
`enter_pin_mode` from the initial state. -/
def pinCaptureState : SecretsState :=
  { secrets_unlocked := false, unlock_timer := 0, pin_entry_mode := true, pin_buffer := [] }

/-- A `CapturingPin` state whose buffer is at the capacity the digit
handler enforces (`MAX_PIN_LENGTH - 1` characters). -/
def fullCaptureState : SecretsState :=
  { secrets_unlocked := false, unlock_timer := 0, pin_entry_mode := true,
    pin_buffer := List.replicate 31 '1' }

/-- An `Unlocked` state (unlocked at millisecond 5). -/
def unlockedState : SecretsState :=
  { secrets_unlocked := true, unlock_timer := 5, pin_entry_mode := false, pin_buffer := [] }

/-- A `CapturingPin` state whose buffer holds `"12"`, which does not
match the reference PIN. -/
def wrongBufferState : SecretsState :=
  { secrets_unlocked := false, unlock_timer := 0, pin_entry_mode := true,
    pin_buffer := ['1', '2'] }

/-- One invocation of a public operation of the gate, with arbitrary
inputs, as dispatched from `process_record_user` / `matrix_scan_user`
in `keymap.c` and from `process_meta_layer.h` (which calls
`secrets_gui_lock`). -/
inductive Step : SecretsState → SecretsState → Prop where
  | enterPinMode (s : SecretsState) : Step s (enter_pin_mode s)
  | pinEntry (s : SecretsState) (now keycode : Nat) (pressed : Bool) :
      Step s (process_pin_entry now s keycode pressed).1
  | pinEntryKeycode (s : SecretsState) (keycode : Nat) (pressed : Bool) :
      Step s (process_pin_entry_keycode s keycode pressed).1
  | secretKeycodes (s : SecretsState) (keycode : Nat) (pressed : Bool) :
      Step s (process_secret_keycodes s keycode pressed).1
  | timerTask (s : SecretsState) (now : Nat) : Step s (secrets_timer_task now s)
  | lock (s : SecretsState) : Step s (secrets_lock s)
  | guiLock (s : SecretsState) : Step s (secrets_gui_lock s)

/-- States reachable from the initial (locked) state by any sequence of
public operations. -/
def Reachable (s : SecretsState) : Prop :=
  Relation.ReflTransGen Step initialState s

/-- Invariant maintained by every public operation: the capturing and
unlocked flags are never both set, and the buffer cursor never passes
`MAX_PIN_LENGTH - 1` (the digit handler reserves the final byte for the
string terminator). -/
def GateInv (s : SecretsState) : Prop :=
  (s.pin_entry_mode = false ∨ s.secrets_unlocked = false) ∧
    s.pin_buffer.length ≤ MAX_PIN_LENGTH - 1

lemma gateInv_initial : GateInv initialState := by
  constructor
  · left; rfl
  · simp [initialState, MAX_PIN_LENGTH]

lemma gateInv_secrets_lock (s : SecretsState) : GateInv (secrets_lock s) := by
  constructor
  · left; rfl
  · simp [secrets_lock, MAX_PIN_LENGTH]

lemma gateInv_enter_pin_mode (s : SecretsState) (_h : GateInv s) : GateInv (enter_pin_mode s) := by
  unfold enter_pin_mode
  split
  · rename_i hu
    refine ⟨Or.inr ?_, ?_⟩
    · simpa using hu
    · simp [MAX_PIN_LENGTH]
  · exact gateInv_secrets_lock s

lemma gateInv_process_pin_entry (s : SecretsState) (now keycode : Nat) (pressed : Bool)
    (h : GateInv s) : GateInv (process_pin_entry now s keycode pressed).1 := by
  obtain ⟨hflag, hlen⟩ := h
  unfold process_pin_entry
  split
  · exact ⟨hflag, hlen⟩
  · rename_i hact
    have hmode : s.pin_entry_mode = true := by
      by_contra hc
      simp [Bool.not_eq_true] at hc
      simp [hc] at hact
    split
    · split
      · rename_i hroom
        refine ⟨hflag, ?_⟩
        simp only [List.length_append, List.length_cons, List.length_nil]
        omega
      · exact ⟨hflag, hlen⟩
    · split
      · split
        · exact ⟨Or.inl rfl, by simp [MAX_PIN_LENGTH]⟩
        · exact ⟨Or.inl rfl, by simp [MAX_PIN_LENGTH]⟩
      · split
        · exact ⟨Or.inl rfl, by simp [MAX_PIN_LENGTH]⟩
        · exact ⟨hflag, hlen⟩

lemma gateInv_process_pin_entry_keycode (s : SecretsState) (keycode : Nat) (pressed : Bool)
    (h : GateInv s) : GateInv (process_pin_entry_keycode s keycode pressed).1 := by
  unfold process_pin_entry_keycode
  split
  · exact gateInv_enter_pin_mode s h
  · exact h

lemma gateInv_process_secret_keycodes (s : SecretsState) (keycode : Nat) (pressed : Bool)
    (h : GateInv s) : GateInv (process_secret_keycodes s keycode pressed).1 := by
  unfold process_secret_keycodes
  split
  · exact h
  · split
    · split <;> exact h
    · exact h

lemma gateInv_secrets_timer_task (s : SecretsState) (now : Nat) (h : GateInv s) :
    GateInv (secrets_timer_task now s) := by
  unfold secrets_timer_task
  split
  · exact ⟨Or.inl rfl, by simp [MAX_PIN_LENGTH]⟩
  · exact h

lemma gateInv_secrets_gui_lock (s : SecretsState) (h : GateInv s) : GateInv (secrets_gui_lock s) := by
  exact ⟨Or.inr rfl, h.2⟩

lemma gateInv_step {s t : SecretsState} (h : GateInv s) (hstep : Step s t) : GateInv t := by
  cases hstep with
  | enterPinMode => exact gateInv_enter_pin_mode s h
  | pinEntry now keycode pressed => exact gateInv_process_pin_entry s now keycode pressed h
  | pinEntryKeycode keycode pressed => exact gateInv_process_pin_entry_keycode s keycode pressed h
  | secretKeycodes keycode pressed => exact gateInv_process_secret_keycodes s keycode pressed h
  | timerTask now => exact gateInv_secrets_timer_task s now h
  | lock => exact gateInv_secrets_lock s
  | guiLock => exact gateInv_secrets_gui_lock s h

lemma reachable_inv {s : SecretsState} (h : Reachable s) : GateInv s := by
  induction h with
  | refl => exact gateInv_initial
  | tail _ hstep ih => exact gateInv_step ih hstep

lemma enter_pin_mode_initial : enter_pin_mode initialState = pinCaptureState := by decide

lemma timer_elapsed_lt (now last : Nat) : timer_elapsed now last < 65536 := by
  unfold timer_elapsed
  exact Nat.mod_lt _ (by norm_num)

/-- C2: the claim says `secrets_timer_task` locks an `Unlocked` gate as
soon as `now - unlocked_at` strictly exceeds `LOCK_TIMEOUT_MS = 300000`.
The code instead compares the 16-bit result of QMK's `timer_elapsed`
(always below `65536`) against `300000`, so the auto-lock condition is
never true: `secrets_timer_task` is the identity on every state at every
time, and in particular the gate of the spec's example stays `Unlocked`
at `now = 300001`.  This contradicts the code's own documentation
("auto-locking after timeout") — the slip is using `timer_elapsed`
instead of `timer_elapsed32` on a `timer_read32` timestamp. -/
theorem secrets_timer_task_never_locks :
    ∀ (now : Nat) (s : SecretsState), secrets_timer_task now s = s := by
  intro now s
  have h := timer_elapsed_lt now s.unlock_timer
  unfold secrets_timer_task
  rw [if_neg]
  simp only [Bool.and_eq_true, decide_eq_true_eq, not_and, LOCK_TIMEOUT_MS]
  intro _
  omega

/-- C3 counterexample: from the reachable `CapturingPin` state,
`secrets_gui_lock` does *not* leave the gate in `Locked`: the capturing
flag stays set (the indicator still reports PIN-entry mode), because the
C function clears only `secrets_unlocked`. -/
theorem secrets_gui_lock_capturing_counterexample :
    Reachable pinCaptureState ∧
      (secrets_gui_lock pinCaptureState).pin_entry_mode = true ∧
      secrets_get_indicator_state (secrets_gui_lock pinCaptureState) = 1 := by
  refine ⟨?_, by decide, by decide⟩
  have h : Reachable (enter_pin_mode initialState) :=
    Relation.ReflTransGen.single (Step.enterPinMode initialState)
  rwa [enter_pin_mode_initial] at h

/-- C3 amended: `secrets_gui_lock` clears exactly the unlocked flag and
nothing else; hence from `Locked` or `Unlocked` the gate ends `Locked`,
but from `CapturingPin` it remains `CapturingPin` (with its buffer). -/
theorem secrets_gui_lock_clears_only_unlock_flag :
    ∀ s : SecretsState,
      (secrets_gui_lock s).secrets_unlocked = false ∧
      (secrets_gui_lock s).pin_entry_mode = s.pin_entry_mode ∧
      (secrets_gui_lock s).pin_buffer = s.pin_buffer ∧
      (secrets_gui_lock s).unlock_timer = s.unlock_timer :=
  fun _ => ⟨rfl, rfl, rfl, rfl⟩

/-- C6: `enter_pin_mode` acts as a toggle.  Called with the gate
`Unlocked` it goes directly to `Locked` (unlocked flag cleared, capture
flag off, buffer cursor reset) and never to `CapturingPin`; called with
the gate not unlocked (in particular `Locked`) it activates
`CapturingPin` with the buffer cursor reset to zero. -/
theorem enter_pin_mode_toggle :
    ∀ s : SecretsState,
      (s.secrets_unlocked = true →
        enter_pin_mode s =
          { s with secrets_unlocked := false, pin_entry_mode := false, pin_buffer := [] }) ∧
      (s.secrets_unlocked = false →
        enter_pin_mode s = { s with pin_entry_mode := true, pin_buffer := [] }) := by
  intro s
  constructor
  · intro h
    simp [enter_pin_mode, secrets_lock, h]
  · intro h
    simp [enter_pin_mode, h]

/-- Witness for C6 at the concrete `Unlocked` and `Locked` states. -/
theorem enter_pin_mode_toggle_witness :
    enter_pin_mode unlockedState =
      { secrets_unlocked := false, unlock_timer := 5, pin_entry_mode := false,
        pin_buffer := [] } ∧
    enter_pin_mode initialState =
      { secrets_unlocked := false, unlock_timer := 0, pin_entry_mode := true,
        pin_buffer := [] } :=
  ⟨(enter_pin_mode_toggle unlockedState).1 rfl, (enter_pin_mode_toggle initialState).2 rfl⟩

/-- C5: in every state reachable from the initial `Locked` state by the
public operations, at most one of the capturing flag (`pin_entry_mode`)
and the unlocked flag (`secrets_unlocked`) is true; and `Locked` (the
indicator state 0) is exactly the state where both are false. -/
theorem at_most_one_of_capturing_and_unlocked :
    (∀ s : SecretsState, Reachable s →
      s.pin_entry_mode = false ∨ s.secrets_unlocked = false) ∧
    (∀ s : SecretsState, secrets_get_indicator_state s = 0 ↔
      s.pin_entry_mode = false ∧ s.secrets_unlocked = false) := by
  constructor
  · intro s h
    exact (reachable_inv h).1
  · intro s
    unfold secrets_get_indicator_state
    rcases hm : s.pin_entry_mode <;> rcases hu : s.secrets_unlocked <;> simp

/-- Witness for C5 at the initial state. -/
theorem at_most_one_of_capturing_and_unlocked_witness :
    (initialState.pin_entry_mode = false ∨ initialState.secrets_unlocked = false) ∧
    (secrets_get_indicator_state initialState = 0 ↔
      initialState.pin_entry_mode = false ∧ initialState.secrets_unlocked = false) :=
  ⟨at_most_one_of_capturing_and_unlocked.1 initialState Relation.ReflTransGen.refl,
   at_most_one_of_capturing_and_unlocked.2 initialState⟩

/-- C4: the PIN buffer length never exceeds `MAX_PIN_LENGTH = 32` in any
reachable state (the digit handler in fact caps it at
`MAX_PIN_LENGTH - 1 = 31`, reserving the last byte for the string
terminator), and a digit key press arriving while the buffer is at that
cap changes nothing: no character is appended, the key is consumed
(return `false`), and the state — in particular `pin_entry_mode` — is
untouched.  Since the buffer is stuck at 31 characters from the 32nd
digit keystroke on, the 33rd digit keystroke appends nothing. -/
theorem pin_buffer_bounded_and_full_digit_noop :
    (∀ s : SecretsState, Reachable s → s.pin_buffer.length ≤ MAX_PIN_LENGTH) ∧
    (∀ (s : SecretsState) (now keycode : Nat),
      s.pin_entry_mode = true → isPinDigitKeycode keycode = true →
      MAX_PIN_LENGTH - 1 ≤ s.pin_buffer.length →
      process_pin_entry now s keycode true = (s, false)) := by
  constructor
  · intro s h
    have h2 := (reachable_inv h).2
    unfold MAX_PIN_LENGTH at *
    omega
  · intro s now keycode hm hk hfull
    unfold process_pin_entry
    rw [hm]
    simp only [Bool.not_true, Bool.or_self, Bool.false_eq_true, if_false]
    rw [if_pos hk, if_neg (by omega)]

/-- Witness for C4: the initial state's buffer is within bounds, and a
`KC_1` press on the full capture buffer is a consumed no-op. -/
theorem pin_buffer_bounded_and_full_digit_noop_witness :
    initialState.pin_buffer.length ≤ MAX_PIN_LENGTH ∧
    process_pin_entry 0 fullCaptureState KC_1 true = (fullCaptureState, false) :=
  ⟨pin_buffer_bounded_and_full_digit_noop.1 initialState Relation.ReflTransGen.refl,
   pin_buffer_bounded_and_full_digit_noop.2 fullCaptureState 0 KC_1 rfl (by decide)
     (by simp [fullCaptureState, MAX_PIN_LENGTH])⟩

/-- C7: a secret-access keystroke (keycode in the secret range) while
the gate is not unlocked — `Locked` or `CapturingPin` — leaves the state
unchanged, emits nothing, and is consumed (the handler returns `false`),
for presses and releases alike. -/
theorem secret_access_while_locked_is_silent :
    ∀ (s : SecretsState) (keycode : Nat) (pressed : Bool),
      s.secrets_unlocked = false →
      E_SECRET_START ≤ keycode → keycode < E_SECRET_END →
      process_secret_keycodes s keycode pressed = (s, [], false) := by
  intro s keycode pressed hu h1 h2
  have hc : (E_PIN ≤ keycode && keycode ≤ E_PASS4 && !s.secrets_unlocked) = true := by
    rw [hu]
    simp only [Bool.not_false, Bool.and_true, Bool.and_eq_true, decide_eq_true_eq]
    unfold E_PIN E_PASS4 E_SECRET_START SAFE_RANGE at *
    unfold E_SECRET_END E_SECRET_START SAFE_RANGE at h2
    omega
  unfold process_secret_keycodes
  rw [if_pos hc]

/-- Witness for C7: a press of `E_PIN` in the initial (locked) state. -/
theorem secret_access_while_locked_is_silent_witness :
    process_secret_keycodes initialState E_PIN true = (initialState, [], false) :=
  secret_access_while_locked_is_silent initialState E_PIN true rfl (by decide) (by decide)

/-- C8: a secret-access key press while the gate is `Unlocked` emits
exactly the addressed secret's stored text (via `get_secret`) followed
by exactly one Enter tap, consumes the key, and leaves the state — the
unlocked flag, the capturing flag, and `unlock_timer` — unchanged. -/
theorem secret_access_while_unlocked_emits :
    ∀ (s : SecretsState) (keycode : Nat),
      s.secrets_unlocked = true →
      E_SECRET_START ≤ keycode → keycode < E_SECRET_END →
      ∃ secret, get_secret (keycode - E_SECRET_START) = some secret ∧
        process_secret_keycodes s keycode true =
          (s, [Emission.text secret, Emission.tap KC_ENT], false) := by
  intro s keycode hu h1 h2
  have hidx : keycode - E_SECRET_START < SECRET_COUNT := by
    unfold SECRET_COUNT secret_list
    unfold E_SECRET_END E_SECRET_START SAFE_RANGE at *
    simp only [List.length_cons, List.length_nil]
    omega
  have hsome : secret_list.get? (keycode - E_SECRET_START) =
      some (secret_list.get ⟨keycode - E_SECRET_START, hidx⟩) :=
    List.get?_eq_get hidx
  refine ⟨secret_list.get ⟨keycode - E_SECRET_START, hidx⟩, ?_, ?_⟩
  · unfold get_secret
    rw [if_pos hidx, hsome]
  · have hc1 : (E_PIN ≤ keycode && keycode ≤ E_PASS4 && !s.secrets_unlocked) = false := by
      rw [hu]
      simp
    have hc2 : (true && decide (E_SECRET_START ≤ keycode) &&
        decide (keycode < E_SECRET_END)) = true := by
      simp only [Bool.true_and, Bool.and_eq_true, decide_eq_true_eq]
      exact ⟨h1, h2⟩
    unfold process_secret_keycodes
    rw [hc1]
    simp only [Bool.false_eq_true, if_false]
    rw [if_pos hc2]
    unfold get_secret
    rw [if_pos hidx, hsome]

/-- Witness for C8: pressing `E_PIN` while unlocked emits the stored PIN
text and one Enter tap. -/
theorem secret_access_while_unlocked_emits_witness :
    ∃ secret, get_secret (E_PIN - E_SECRET_START) = some secret ∧
      process_secret_keycodes unlockedState E_PIN true =
        (unlockedState, [Emission.text secret, Emission.tap KC_ENT], false) :=
  secret_access_while_unlocked_emits unlockedState E_PIN rfl (by decide) (by decide)

/-- C9 counterexample: the claim says every gate handler passes every
key-release event through unconsumed (returns `true`), including in the
`Locked` state.  But the locked-state blocking branch of
`process_secret_keycodes` does not test `record->event.pressed`: the
release of the secret keycode `E_PIN` in the initial (locked) state is
consumed (the handler returns `false`). -/
theorem release_passthrough_counterexample :
    ¬ (process_secret_keycodes initialState E_PIN false).2.2 = true := by
  decide

/-- C9 amended: every key-release event causes no state change and no
emission in any gate handler; `process_pin_entry` and
`process_pin_entry_keycode` always pass releases through (return
`true`), while `process_secret_keycodes` passes a release through
exactly when it is not a secret-range keycode released while the gate is
not unlocked (in that one case it consumes the release, still changing
nothing and emitting nothing). -/
theorem release_events_change_nothing :
    ∀ (s : SecretsState) (now keycode : Nat),
      process_pin_entry now s keycode false = (s, true) ∧
      process_pin_entry_keycode s keycode false = (s, true) ∧
      (process_secret_keycodes s keycode false).1 = s ∧
      (process_secret_keycodes s keycode false).2.1 = [] ∧
      ((process_secret_keycodes s keycode false).2.2 = false ↔
        (E_SECRET_START ≤ keycode ∧ keycode < E_SECRET_END ∧
          s.secrets_unlocked = false)) := by
  intro s now keycode
  refine ⟨?_, ?_, ?_⟩
  · simp [process_pin_entry]
  · simp [process_pin_entry_keycode]
  · unfold process_secret_keycodes
    by_cases hc : (E_PIN ≤ keycode && keycode ≤ E_PASS4 && !s.secrets_unlocked) = true
    · rw [if_pos hc]
      simp only [Bool.and_eq_true, decide_eq_true_eq, Bool.not_eq_true'] at hc
      obtain ⟨⟨ha, hb⟩, hu⟩ := hc
      refine ⟨rfl, rfl, ?_⟩
      constructor
      · intro _
        refine ⟨ha, ?_, hu⟩
        unfold E_PASS4 at hb
        unfold E_SECRET_END
        omega
      · intro _
        rfl
    · rw [if_neg hc, if_neg (by simp)]
      refine ⟨rfl, rfl, ?_⟩
      constructor
      · intro h
        simp at h
      · intro hr
        exfalso
        apply hc
        obtain ⟨h1, h2, h3⟩ := hr
        simp only [Bool.and_eq_true, decide_eq_true_eq, Bool.not_eq_true']
        refine ⟨⟨h1, ?_⟩, h3⟩
        unfold E_SECRET_END at h2
        unfold E_PASS4
        omega

/-- C10: starting from the same `CapturingPin` state with a buffer that
does not match the reference PIN, submitting (`KC_ENT`) and cancelling
(`KC_ESC`) produce identical observable outcomes: the very same
resulting state (`Locked`, buffer length zero), the same consumed return
value `false`, and the same indicator state. -/
theorem wrong_pin_submit_indistinguishable_from_cancel :
    ∀ (s : SecretsState) (now : Nat),
      s.pin_entry_mode = true → s.secrets_unlocked = false →
      s.pin_buffer ≠ SECRET_PIN.toList →
      process_pin_entry now s KC_ENT true = process_pin_entry now s KC_ESC true ∧
      (process_pin_entry now s KC_ENT true).1.pin_entry_mode = false ∧
      (process_pin_entry now s KC_ENT true).1.secrets_unlocked = false ∧
      (process_pin_entry now s KC_ENT true).1.pin_buffer = [] ∧
      (process_pin_entry now s KC_ENT true).2 = false ∧
      secrets_get_indicator_state (process_pin_entry now s KC_ENT true).1 =
        secrets_get_indicator_state (process_pin_entry now s KC_ESC true).1 := by
  intro s now hm hu hwrong
  have hent : process_pin_entry now s KC_ENT true =
      ({ s with pin_entry_mode := false, pin_buffer := [] }, false) := by
    unfold process_pin_entry
    rw [hm]
    rw [if_neg (by simp), if_neg (by decide), if_pos (by decide), if_neg hwrong]
  have hesc : process_pin_entry now s KC_ESC true =
      ({ s with pin_entry_mode := false, pin_buffer := [] }, false) := by
    unfold process_pin_entry
    rw [hm]
    rw [if_neg (by simp), if_neg (by decide), if_neg (by decide), if_pos (by decide)]
  rw [hent, hesc]
  exact ⟨rfl, rfl, hu, rfl, rfl, rfl⟩

/-- Witness for C10 at a concrete capture state holding the wrong
buffer `"12"`. -/
theorem wrong_pin_submit_indistinguishable_from_cancel_witness :
    process_pin_entry 0 wrongBufferState KC_ENT true =
      process_pin_entry 0 wrongBufferState KC_ESC true :=
  (wrong_pin_submit_indistinguishable_from_cancel wrongBufferState 0 rfl rfl (by decide)).1

lemma process_pin_entry_digit (now : Nat) (s : SecretsState) (keycode : Nat)
    (hm : s.pin_entry_mode = true) (hk : isPinDigitKeycode keycode = true) :
    (process_pin_entry now s keycode true).1 =
      if s.pin_buffer.length < MAX_PIN_LENGTH - 1 then
        { s with pin_buffer := s.pin_buffer ++ [bufferChar keycode] }
      else s := by
  unfold process_pin_entry
  rw [hm, if_neg (by simp), if_pos hk]
  by_cases hlen : s.pin_buffer.length < MAX_PIN_LENGTH - 1
  · rw [if_pos hlen, if_pos hlen]
  · rw [if_neg hlen, if_neg hlen]

lemma runDigits_spec (now : Nat) :
    ∀ (ds : List Nat) (s : SecretsState), s.pin_entry_mode = true →
      (∀ k ∈ ds, isPinDigitKeycode k = true) →
      runDigits now s ds =
        { s with pin_buffer := s.pin_buffer ++
            (ds.map bufferChar).take (MAX_PIN_LENGTH - 1 - s.pin_buffer.length) } := by
  intro ds
  induction ds with
  | nil =>
    intro s hm hds
    simp [runDigits]
  | cons k t ih =>
    intro s hm hds
    have hk := hds k (List.mem_cons_self k t)
    have ht : ∀ x ∈ t, isPinDigitKeycode x = true :=
      fun x hx => hds x (List.mem_cons_of_mem k hx)
    unfold runDigits
    simp only [List.foldl_cons]
    rw [show (process_pin_entry now s k true).1 =
        if s.pin_buffer.length < MAX_PIN_LENGTH - 1 then
          { s with pin_buffer := s.pin_buffer ++ [bufferChar k] }
        else s from process_pin_entry_digit now s k hm hk]
    by_cases hlen : s.pin_buffer.length < MAX_PIN_LENGTH - 1
    · rw [if_pos hlen]
      have := ih { s with pin_buffer := s.pin_buffer ++ [bufferChar k] } hm ht
      unfold runDigits at this
      rw [this]
      congr 1
      simp only [List.length_append, List.length_cons, List.length_nil, List.map_cons]
      obtain ⟨m, hmn⟩ : ∃ m, MAX_PIN_LENGTH - 1 - s.pin_buffer.length = m + 1 :=
        ⟨MAX_PIN_LENGTH - 2 - s.pin_buffer.length, by unfold MAX_PIN_LENGTH at *; omega⟩
      have hmn2 : MAX_PIN_LENGTH - 1 - (s.pin_buffer.length + 1) = m := by
        unfold MAX_PIN_LENGTH at *
        omega
      rw [hmn, hmn2, List.take_succ_cons, List.append_assoc, List.singleton_append]
    · rw [if_neg hlen]
      have := ih s hm ht
      unfold runDigits at this
      rw [this]
      congr 1
      have h0 : MAX_PIN_LENGTH - 1 - s.pin_buffer.length = 0 := by
        unfold MAX_PIN_LENGTH at *
        omega
      rw [h0]
      simp

lemma process_pin_entry_submit (now : Nat) (s : SecretsState) (keycode : Nat)
    (hm : s.pin_entry_mode = true) (hk : keycode = KC_PENT ∨ keycode = KC_ENT) :
    process_pin_entry now s keycode true =
      if s.pin_buffer = SECRET_PIN.toList then
        ({ s with secrets_unlocked := true, unlock_timer := now,
                  pin_entry_mode := false, pin_buffer := [] }, false)
      else
        ({ s with pin_entry_mode := false, pin_buffer := [] }, false) := by
  have hknd : ¬ isPinDigitKeycode keycode = true := by
    rcases hk with h | h <;> subst h <;> decide
  have hsub : (keycode = KC_PENT || keycode = KC_ENT) = true := by
    rcases hk with h | h <;> subst h <;> decide
  unfold process_pin_entry
  rw [hm, if_neg (by simp), if_neg hknd, if_pos hsub]

lemma take_eq_of_short (l P : List Char) (hP : P.length < MAX_PIN_LENGTH - 1) :
    l.take (MAX_PIN_LENGTH - 1) = P ↔ l = P := by
  unfold MAX_PIN_LENGTH at *
  constructor
  · intro h
    have hlen := congrArg List.length h
    simp only [List.length_take] at hlen
    have hl : l.length ≤ 31 := by omega
    rwa [List.take_of_length_le hl] at h
  · intro h
    subst h
    exact List.take_of_length_le (by omega)

lemma pinDigitVal_eq_keyDigit (keycode : Nat) (hk : isPinDigitKeycode keycode = true)
    (h0 : keycode ≠ KC_0) : pinDigitVal keycode = keyDigit keycode := by
  have hk' : (30 ≤ keycode ∧ keycode ≤ 39) ∨ (89 ≤ keycode ∧ keycode ≤ 98) := by
    simpa [isPinDigitKeycode, KC_1, KC_0, KC_KP_1, KC_KP_0] using hk
  have h0' : ¬ keycode = 39 := by simpa [KC_0] using h0
  unfold pinDigitVal keyDigit KC_1 KC_0 KC_KP_1 KC_KP_9 KC_KP_0
  rcases hk' with ⟨ha, hb⟩ | ⟨ha, hb⟩
  · rw [if_neg, if_neg, if_neg, if_neg]
    · simp only [Bool.and_eq_true, decide_eq_true_eq, not_and]
      omega
    · simp only [Bool.or_eq_true, decide_eq_true_eq, not_or]
      omega
    · omega
    · simp only [Bool.and_eq_true, decide_eq_true_eq, not_and]
      omega
  · by_cases h9 : keycode ≤ 97
    · rw [if_pos, if_neg, if_pos]
      · simp only [Bool.and_eq_true, decide_eq_true_eq]
        omega
      · simp only [Bool.or_eq_true, decide_eq_true_eq, not_or]
        omega
      · simp only [Bool.and_eq_true, decide_eq_true_eq]
        omega
    · have h98 : keycode = 98 := by omega
      subst h98
      decide

lemma bufferChar_eq_keyChar (keycode : Nat) (hk : isPinDigitKeycode keycode = true)
    (h0 : keycode ≠ KC_0) : bufferChar keycode = keyChar keycode := by
  unfold bufferChar keyChar
  rw [pinDigitVal_eq_keyDigit keycode hk h0]

lemma map_bufferChar_eq_iff :
    ∀ (ds : List Nat) (P : List Char),
      (∀ k ∈ ds, isPinDigitKeycode k = true) →
      (∀ c ∈ P, c ≠ ':' ∧ c ≠ '0') →
      (ds.map bufferChar = P ↔ ds.map keyChar = P) := by
  intro ds
  induction ds with
  | nil =>
    intro P _ _
    simp
  | cons k t ih =>
    intro P hds hP
    have hk := hds k (List.mem_cons_self k t)
    have ht : ∀ x ∈ t, isPinDigitKeycode x = true :=
      fun x hx => hds x (List.mem_cons_of_mem k hx)
    cases P with
    | nil => simp
    | cons c P' =>
      have hc := hP c (List.mem_cons_self c P')
      have hP' : ∀ x ∈ P', x ≠ ':' ∧ x ≠ '0' :=
        fun x hx => hP x (List.mem_cons_of_mem c hx)
      simp only [List.map_cons, List.cons.injEq]
      have hhead : bufferChar k = c ↔ keyChar k = c := by
        by_cases h0 : k = KC_0
        · subst h0
          constructor
          · intro h
            exact absurd (by rw [← h]; decide) hc.1
          · intro h
            exact absurd (by rw [← h]; decide) hc.2
        · rw [bufferChar_eq_keyChar k hk h0]
      exact and_congr hhead (ih P' ht hP')

/-- C1: from a fresh `CapturingPin` state, delivering any sequence of
digit key presses of length at most `MAX_PIN_LENGTH` and then a submit
key press (`KC_ENT` or `KC_PENT`), the gate ends with
`secrets_unlocked = true` exactly when the entered digit string equals
the reference PIN `"12345678"` in both length and content; otherwise it
ends `Locked` (capture flag off and unlocked flag still false).  PIN
entry mode is exited in either case. -/
theorem pin_submit_unlocks_iff_pin_matches :
    ∀ (ds : List Nat) (s : SecretsState) (now ksub : Nat),
      (∀ k ∈ ds, isPinDigitKeycode k = true) →
      ds.length ≤ MAX_PIN_LENGTH →
      (ksub = KC_PENT ∨ ksub = KC_ENT) →
      s.pin_entry_mode = true → s.secrets_unlocked = false → s.pin_buffer = [] →
      ((process_pin_entry now (runDigits now s ds) ksub true).1.secrets_unlocked = true ↔
        ds.map keyChar = SECRET_PIN.toList) ∧
      (process_pin_entry now (runDigits now s ds) ksub true).1.pin_entry_mode = false ∧
      (ds.map keyChar ≠ SECRET_PIN.toList →
        (process_pin_entry now (runDigits now s ds) ksub true).1.secrets_unlocked = false) := by
  intro ds s now ksub hds hlen hsub hm hu hb
  have hrun := runDigits_spec now ds s hm hds
  rw [hb] at hrun
  simp only [List.nil_append, List.length_nil, Nat.sub_zero] at hrun
  have hm' : (runDigits now s ds).pin_entry_mode = true := by
    rw [hrun]
    exact hm
  have hu' : (runDigits now s ds).secrets_unlocked = false := by
    rw [hrun]
    exact hu
  have hsubmit := process_pin_entry_submit now (runDigits now s ds) ksub hm' hsub
  have hbuf : (runDigits now s ds).pin_buffer =
      (ds.map bufferChar).take (MAX_PIN_LENGTH - 1) := by
    rw [hrun]
  have hiff : (runDigits now s ds).pin_buffer = SECRET_PIN.toList ↔
      ds.map keyChar = SECRET_PIN.toList := by
    rw [hbuf, take_eq_of_short _ _ (by decide)]
    exact map_bufferChar_eq_iff ds SECRET_PIN.toList hds (by decide)
  by_cases hmatch : (runDigits now s ds).pin_buffer = SECRET_PIN.toList
  · rw [hsubmit, if_pos hmatch]
    refine ⟨⟨fun _ => hiff.mp hmatch, fun _ => rfl⟩, rfl, fun hne => absurd (hiff.mp hmatch) hne⟩
  · rw [hsubmit, if_neg hmatch]
    refine ⟨⟨?_, ?_⟩, rfl, fun _ => hu'⟩
    · intro h
      rw [hu'] at h
      exact absurd h (by simp)
    · intro h
      exact absurd (hiff.mpr h) hmatch

/-- Witness for C1: entering the eight main-row digits 1–8 from the
fresh capture state and submitting with Enter unlocks the gate. -/
theorem pin_submit_unlocks_iff_pin_matches_witness :
    (process_pin_entry 0 (runDigits 0 pinCaptureState [30, 31, 32, 33, 34, 35, 36, 37])
      KC_ENT true).1.secrets_unlocked = true :=
  (pin_submit_unlocks_iff_pin_matches [30, 31, 32, 33, 34, 35, 36, 37] pinCaptureState 0
    KC_ENT (by decide) (by decide) (Or.inr rfl) rfl rfl rfl).1.mpr (by decide)
